import Mathlib

/-!
Verification of the vscode-tracker activity-reporter core against its
natural-language specification.

The JavaScript source (`src/extension.js` and the later revision with the
repository resolver, `src/unnamed/part_000`) is shallowly embedded:
JS string primitives are modelled on `List Char`; the polling pipeline
(`pollState`) becomes a pure function from an environment (the outcomes of
the external `git` calls) and the process-wide mutable globals to the
updated globals plus an ordered trace of external effects.
-/

set_option autoImplicit false

namespace VSCodeTracker

/-! ## JS string primitives, modelled on `List Char` -/

/-- JS `String.prototype.split` with a one-character separator, at the
char-list level.  Note `''.split(sep)` is `['']`: the result is never the
empty list. -/
def splitCharList (sep : Char) : List Char → List (List Char)
  | [] => [[]]
  | c :: rest =>
    if c = sep then [] :: splitCharList sep rest
    else
      match splitCharList sep rest with
      | [] => [[c]]
      | h :: t => (c :: h) :: t

/-- `stdout.split('\n')` as used by `getGitRemotes` and `getGitRemoteURL`. -/
def jsSplitNl (s : String) : List String :=
  (splitCharList '\n' s.toList).map fun l => ⟨l⟩

/-- JS `String.prototype.trim` (ASCII whitespace is all that occurs in the
`git` output being trimmed). -/
def jsTrim (s : String) : String :=
  ⟨((s.toList.dropWhile Char.isWhitespace).reverse.dropWhile Char.isWhitespace).reverse⟩

/-- JS `String.prototype.replace` with a plain-string pattern replaces only
the FIRST occurrence of `pat` (char-list level). -/
def replaceOnceL (pat rep : List Char) : List Char → List Char
  | [] => []
  | c :: rest =>
    if pat.isPrefixOf (c :: rest) then rep ++ (c :: rest).drop pat.length
    else c :: replaceOnceL pat rep rest

/-- JS `s.replace(pat, rep)` with a plain-string pattern. -/
def jsReplaceOnce (s pat rep : String) : String :=
  ⟨replaceOnceL pat.toList rep.toList s.toList⟩

/-- JS `String.prototype.startsWith`. -/
def jsStartsWith (s pre : String) : Bool :=
  pre.toList.isPrefixOf s.toList

/-- JS `Math.abs` on integers. -/
def jsAbs (x : Int) : Int := if x < 0 then -x else x

/-! ## The `State` record and the change detector -/

/-- The `State` record of `pollState` (fields in declaration order). -/
structure State where
  workspace : String
  fileName : String
  language : String
  row : Int
  col : Int
  viewChunk : String
  deriving DecidableEq, Repr

/-- `shallowEqual` specialised to two `State` records: both key sets are the
same six keys in the same order, so the key-count check passes and the loop
reduces to field-wise equality. -/
def shallowEqual (a b : State) : Bool :=
  a.workspace == b.workspace && a.fileName == b.fileName &&
  a.language == b.language && a.row == b.row && a.col == b.col &&
  a.viewChunk == b.viewChunk

/-- The change detector: `pollState` proceeds past its first gate exactly
when `shallowEqual prev cur` is false. -/
def changed (a b : State) : Bool := !shallowEqual a b

/-- Number of fields in which two `State` records differ. -/
def diffCount (a b : State) : Nat :=
  (if a.workspace = b.workspace then 0 else 1) +
  (if a.fileName = b.fileName then 0 else 1) +
  (if a.language = b.language then 0 else 1) +
  (if a.row = b.row then 0 else 1) +
  (if a.col = b.col then 0 else 1) +
  (if a.viewChunk = b.viewChunk then 0 else 1)

/-! ## The view-window algorithm (`getViewRange`) -/

/-- `vscode.Position`, restricted to the two numeric components used. -/
structure Position where
  line : Int
  character : Int
  deriving DecidableEq, Repr

/-- `vscode.Range`, as the pair of positions `getViewRange` constructs. -/
structure Range where
  startPos : Position
  endPos : Position
  deriving DecidableEq, Repr

/-- `getViewRange` of the source: `range = 5`, `totalRange = 11`;
`startLine2` models the JS reassignment of `startLine` in the final
branch. -/
def getViewRange (line : Int) (lineCount : Int) : Range :=
  let range : Int := 5
  let totalRange : Int := range * 2 + 1
  if lineCount < totalRange then
    ⟨⟨0, 0⟩, ⟨lineCount, 0⟩⟩
  else
    let startLine := max 0 (line - range)
    if lineCount - startLine ≥ totalRange then
      ⟨⟨startLine, 0⟩, ⟨startLine + totalRange - 1, 0⟩⟩
    else
      let startLine2 := startLine - jsAbs (lineCount - startLine - totalRange)
      ⟨⟨startLine2, 0⟩, ⟨startLine2 + totalRange - 1, 0⟩⟩

/-! ## The reporting pipeline of the part_000 revision

`pollState` is embedded as a pure tick function.  The environment fixes the
outcomes of the external calls a tick may perform; the result carries the
updated process-wide globals, the ordered trace of external effects, and
the tick's terminal outcome. -/

/-- Outcome of a promisified `child_process.exec` call: `success` means the
process exited with code 0 (the promise resolved); `failure code` means the
promise rejected, `code` being the numeric `err.code` (`none` models an
absent or non-numeric `code`, e.g. a spawn failure). -/
inductive ExecResult
  | success
  | failure (code : Option Int)
  deriving DecidableEq, Repr

/-- Outcomes of the external calls available to one tick.  The working
directory of every call is `path.dirname` of the active file, which is
fixed within a tick, so it is left implicit here. -/
structure ExecEnv where
  /-- Outcome of `git check-ignore <file> -q`. -/
  ignoreCheck : ExecResult
  /-- `stdout` of `git remote` (`none` = the command failed). -/
  gitRemote : Option String
  /-- `stdout` of `git remote get-url --all <remote>` per remote name
  (`none` = the command failed). -/
  remoteUrl : String → Option String

/-- A JS value as it appears in the outbound payload object. -/
inductive JValue
  | str (s : String)
  | num (n : Int)
  | undefined
  deriving DecidableEq, Repr

/-- `undefined` for a missing repository URL, the string itself otherwise. -/
def jsOfOption : Option String → JValue
  | some s => .str s
  | none => .undefined

/-- The object literal `{repository, ...curState}` built for the POST body. -/
def payloadObject (repository : Option String) (s : State) : List (String × JValue) :=
  [("repository", jsOfOption repository),
   ("workspace", .str s.workspace),
   ("fileName", .str s.fileName),
   ("language", .str s.language),
   ("row", .num s.row),
   ("col", .num s.col),
   ("viewChunk", .str s.viewChunk)]

/-- The keys surviving `JSON.stringify`, which omits properties whose value
is `undefined`. -/
def serializedKeys (obj : List (String × JValue)) : List String :=
  (obj.filter fun p => p.2 != JValue.undefined).map Prod.fst

/-- One observable effect of a tick, in execution order. -/
inductive Event
  | abortPrev
  | newController
  | execIgnoreCheck (fileName : String)
  | execGitRemote
  | execGetUrl (remote : String)
  | setPrevState (s : State)
  | httpSend (body : List (String × JValue))
  deriving DecidableEq, Repr

/-- The process-wide mutable globals of the module. -/
structure Globals where
  prevState : State
  ignoredFiles : List String
  knownGitHubs : List (String × String)
  /-- whether `updateStateAbortController` is defined. -/
  hasController : Bool
  deriving DecidableEq, Repr

/-- Where a tick terminated. -/
inductive Outcome
  | unchanged
  | ignoredCached
  | ignoredChecked
  | reported (repository : Option String)
  deriving DecidableEq, Repr

/-- Result of one `pollState` tick. -/
structure TickResult where
  globals : Globals
  trace : List Event
  outcome : Outcome
  deriving DecidableEq, Repr

/-- `getGitRemotes`: `stdout.trim().split('\n')` on success, `[]` when the
`git remote` command failed. -/
def getGitRemotes (res : Option String) : List String :=
  match res with
  | some stdout => jsSplitNl (jsTrim stdout)
  | none => []

/-- The URL-acceptance and rewriting step inside `getGitRemoteURL`: a URL
is accepted iff it starts with `git@github.com`; an accepted URL goes
through `url.replace('git@github.com:', 'https://github.com/')` followed by
`url.replace('.git', '')` — both first-occurrence replacements. -/
def matchGitHubURL (url : String) : Option String :=
  if jsStartsWith url "git@github.com" then
    some (jsReplaceOnce (jsReplaceOnce url "git@github.com:" "https://github.com/") ".git" "")
  else
    none

/-- The `for` loop of `getGitRemoteURL` over the listed URLs. -/
def scanURLs : List String → Option String
  | [] => none
  | u :: rest =>
    match matchGitHubURL u with
    | some r => some r
    | none => scanURLs rest

/-- `getGitRemoteURL`: split the command output into URLs and return the
first accepted one, rewritten; `none` on command failure or no match. -/
def getGitRemoteURL (res : Option String) : Option String :=
  match res with
  | some stdout => scanURLs (jsSplitNl (jsTrim stdout))
  | none => none

/-- The `for` loop of `findGitHubURL` over the remote names, also
collecting the `git remote get-url` calls it performs, in order. -/
def scanRemotes (env : ExecEnv) : List String → Option String × List Event
  | [] => (none, [])
  | r :: rest =>
    match getGitRemoteURL (env.remoteUrl r) with
    | some u => (some u, [Event.execGetUrl r])
    | none => ((scanRemotes env rest).1, Event.execGetUrl r :: (scanRemotes env rest).2)

/-- `findGitHubURL`: answer from the `knownGitHubs` cache when present
(no external call); otherwise enumerate remotes and scan them, caching only
a successful match.  (The `activeFilename` argument of the source only
selects the working directory, which `env` already fixes.) -/
def findGitHubURL (env : ExecEnv) (g : Globals) (workspace : String) :
    Option String × Globals × List Event :=
  match List.lookup workspace g.knownGitHubs with
  | some u => (some u, g, [])
  | none =>
    let res := scanRemotes env (getGitRemotes env.gitRemote)
    match res.1 with
    | some u => (some u, { g with knownGitHubs := (workspace, u) :: g.knownGitHubs },
                 Event.execGitRemote :: res.2)
    | none => (none, g, Event.execGitRemote :: res.2)

/-- The `isIgnored` local of `pollState`: `none` models the JS variable
remaining `undefined` (the check exited 0), `some b` the value assigned in
the catch block, `err.code === undefined || err.code !== 1`. -/
def ignoreCheckIsIgnored : ExecResult → Option Bool
  | .success => none
  | .failure code => some (code == none || code != some 1)

/-- The branch condition `isIgnored === undefined || isIgnored === true`. -/
def ignoreBranchTaken (r : ExecResult) : Bool :=
  match ignoreCheckIsIgnored r with
  | none => true
  | some b => b

/-- The tail of a reporting tick: resolve the repository, commit
`prevState = curState`, then issue the POST. -/
def reportPhase (env : ExecEnv) (g : Globals) (cur : State) (evs : List Event) : TickResult :=
  let res := findGitHubURL env g cur.workspace
  let g2 := { res.2.1 with prevState := cur }
  ⟨g2, evs ++ res.2.2 ++ [Event.setPrevState cur, Event.httpSend (payloadObject res.1 cur)],
   .reported res.1⟩

/-- `pollState` of the part_000 revision, given the captured snapshot
`cur` (snapshot extraction itself is host glue).  Gate order follows the
source: change gate, ignore-cache gate, abort+fresh controller, conditional
ignore check, repository resolution, `prevState` commit, POST. -/
def pollState (env : ExecEnv) (g : Globals) (cur : State) : TickResult :=
  if shallowEqual g.prevState cur then
    ⟨g, [], .unchanged⟩
  else if g.ignoredFiles.contains cur.fileName then
    ⟨g, [], .ignoredCached⟩
  else
    let ctrlEvents := (if g.hasController then [Event.abortPrev] else []) ++ [Event.newController]
    let g1 : Globals := { g with hasController := true }
    if g.prevState.fileName != cur.fileName then
      if ignoreBranchTaken env.ignoreCheck then
        ⟨{ g1 with ignoredFiles := cur.fileName :: g1.ignoredFiles },
         ctrlEvents ++ [Event.execIgnoreCheck cur.fileName], .ignoredChecked⟩
      else
        reportPhase env g1 cur (ctrlEvents ++ [Event.execIgnoreCheck cur.fileName])
    else
      reportPhase env g1 cur ctrlEvents

/-- Event classifier: the two cancellation-handle effects. -/
def isCtrlEvent : Event → Bool
  | .abortPrev => true
  | .newController => true
  | _ => false

/-- Event classifier: the network send. -/
def isSendEvent : Event → Bool
  | .httpSend _ => true
  | _ => false

/-- Event classifier: external `git` process invocations. -/
def isExecEvent : Event → Bool
  | .execIgnoreCheck _ => true
  | .execGitRemote => true
  | .execGetUrl _ => true
  | _ => false

/-- `pat` has no match in `pre ++ pat` starting strictly before the final
`pat` (stated over the suffixes of `pre`): under this condition the
first-occurrence replacement strips exactly the trailing `pat`. -/
def noEarlyMatch (pat pre : List Char) : Bool :=
  pre.tails.all fun q => q.isEmpty || !(pat.isPrefixOf (q ++ pat))

/-- Concrete environment whose only remote is `origin`, a non-GitHub SSH
remote, with the ignore check reporting "not ignored" (exit code 1). -/
def envNoMatch : ExecEnv :=
  ⟨.failure (some 1), some "origin", fun _ => some "git@gitlab.com:acme/widgets.git"⟩

/-- Concrete environment whose only remote is `origin`, a GitHub SSH
remote, with the ignore check reporting "not ignored" (exit code 1). -/
def envGitHub : ExecEnv :=
  ⟨.failure (some 1), some "origin", fun _ => some "git@github.com:acme/widgets.git"⟩

/-- The globals at process start. -/
def gInit : Globals := ⟨⟨"", "", "", 0, 0, ""⟩, [], [], false⟩

/-- A sample captured snapshot. -/
def sSample : State := ⟨"proj", "C:\\proj\\main.go", "go", 3, 7, "chunk"⟩

/-- Environment whose ignore check exits 0 (the file is ignored). -/
def envIgnored : ExecEnv := ⟨.success, some "origin", fun _ => none⟩

/-- Environment whose `git remote` enumeration succeeds with empty output. -/
def envEmptyRemote : ExecEnv := ⟨.failure (some 1), some "", fun _ => none⟩

/-- Globals with one file already in the ignore cache. -/
def gIgnored : Globals := ⟨⟨"", "", "", 0, 0, ""⟩, ["C:\\proj\\x.txt"], [], false⟩

/-- A snapshot whose file is the one cached in `gIgnored`. -/
def sIgn : State := ⟨"proj", "C:\\proj\\x.txt", "plaintext", 0, 1, "v"⟩

/-! ## Helper lemmas -/

theorem shallowEqual_iff (a b : State) : shallowEqual a b = true ↔ a = b := by
  cases a; cases b
  simp [shallowEqual, and_assoc]

theorem shallowEqual_refl (s : State) : shallowEqual s s = true := by
  simp [shallowEqual]

theorem isPrefixOf_append_self (l t : List Char) : l.isPrefixOf (l ++ t) = true := by
  rw [List.isPrefixOf_iff_prefix]
  exact List.prefix_append l t

theorem replaceOnceL_append_self (pat rep s : List Char) (hp : pat ≠ []) :
    replaceOnceL pat rep (pat ++ s) = rep ++ s := by
  cases pat with
  | nil => exact absurd rfl hp
  | cons c cs =>
    have h : (c :: cs).isPrefixOf (c :: (cs ++ s)) = true :=
      isPrefixOf_append_self (c :: cs) s
    simp [replaceOnceL, h]

theorem replaceOnceL_strip_tail (pat rep : List Char) (hp : pat ≠ []) :
    ∀ pre : List Char, noEarlyMatch pat pre = true →
      replaceOnceL pat rep (pre ++ pat) = pre ++ rep := by
  intro pre
  induction pre with
  | nil =>
    intro _
    have h0 := replaceOnceL_append_self pat rep [] hp
    rw [List.append_nil, List.append_nil] at h0
    rw [List.nil_append, List.nil_append]
    exact h0
  | cons d ds ih =>
    intro h
    rw [noEarlyMatch, List.tails_cons, List.all_cons, Bool.and_eq_true] at h
    obtain ⟨h1, h2⟩ := h
    have hnp : pat.isPrefixOf (d :: (ds ++ pat)) = false := by
      simp only [List.isEmpty_cons, Bool.false_or, Bool.not_eq_true', List.cons_append] at h1
      exact h1
    have ihh := ih (by rw [noEarlyMatch]; exact h2)
    simp [replaceOnceL, hnp, ihh]

theorem splitCharList_ne_nil (sep : Char) (l : List Char) : splitCharList sep l ≠ [] := by
  cases l with
  | nil => simp [splitCharList]
  | cons c rest =>
    rw [splitCharList]
    split_ifs
    · simp
    · cases h : splitCharList sep rest <;> simp

theorem scanRemotes_all_exec (env : ExecEnv) :
    ∀ l : List String, ((scanRemotes env l).2).all isExecEvent = true := by
  intro l
  induction l with
  | nil => rfl
  | cons r rest ih =>
    cases h : getGitRemoteURL (env.remoteUrl r) <;>
      simp [scanRemotes, h, isExecEvent, ih]

theorem findGitHubURL_all_exec (env : ExecEnv) (g : Globals) (w : String) :
    ((findGitHubURL env g w).2.2).all isExecEvent = true := by
  rw [findGitHubURL]
  cases hl : List.lookup w g.knownGitHubs with
  | some u => simp
  | none =>
    cases hs : (scanRemotes env (getGitRemotes env.gitRemote)).1 <;>
      simp [hs, isExecEvent, scanRemotes_all_exec]

theorem findGitHubURL_hasController (env : ExecEnv) (g : Globals) (w : String) :
    ((findGitHubURL env g w).2.1).hasController = g.hasController := by
  rw [findGitHubURL]
  cases hl : List.lookup w g.knownGitHubs with
  | some u => rfl
  | none =>
    cases hs : (scanRemotes env (getGitRemotes env.gitRemote)).1 <;> simp [hs]

theorem exec_not_send (e : Event) (h : isExecEvent e = true) : isSendEvent e = false := by
  cases e <;> simp_all [isExecEvent, isSendEvent]

theorem exec_not_ctrl (e : Event) (h : isExecEvent e = true) : isCtrlEvent e = false := by
  cases e <;> simp_all [isExecEvent, isCtrlEvent]

theorem all_not_send_of_all_exec (l : List Event) (h : l.all isExecEvent = true) :
    l.all (fun e => !isSendEvent e) = true := by
  rw [List.all_eq_true] at h ⊢
  intro e he
  simp [exec_not_send e (h e he)]

theorem all_not_ctrl_of_all_exec (l : List Event) (h : l.all isExecEvent = true) :
    l.all (fun e => !isCtrlEvent e) = true := by
  rw [List.all_eq_true] at h ⊢
  intro e he
  simp [exec_not_ctrl e (h e he)]

theorem scanRemotes_none (env : ExecEnv) (l : List String)
    (h : ∀ r ∈ l, getGitRemoteURL (env.remoteUrl r) = none) :
    scanRemotes env l = (none, l.map Event.execGetUrl) := by
  induction l with
  | nil => rfl
  | cons r rest ih =>
    have hr := h r (by simp)
    have ihh := ih fun x hx => h x (by simp [hx])
    simp [scanRemotes, hr, ihh]

/-! ## Claims C5, C6, C7 -/

/-- C5: for every document with `lineCount ≥ 11` and every cursor line in
`[0, lineCount)`, `getViewRange` returns a window of exactly 11 lines
(`endPos.line - startPos.line + 1 = 11`), both bound lines lie in
`[0, lineCount)`, and the cursor line lies inside the window. -/
theorem C5_view_window_size (L N : Int) (hN : 11 ≤ N) (hL0 : 0 ≤ L) (hLN : L < N) :
    (getViewRange L N).endPos.line - (getViewRange L N).startPos.line + 1 = 11 ∧
    0 ≤ (getViewRange L N).startPos.line ∧
    (getViewRange L N).endPos.line < N ∧
    (getViewRange L N).startPos.line ≤ L ∧ L ≤ (getViewRange L N).endPos.line := by
  simp only [getViewRange, jsAbs]
  split_ifs <;> simp_all <;> omega

theorem C5_view_window_size_witness :
    (getViewRange 3 11).endPos.line - (getViewRange 3 11).startPos.line + 1 = 11 ∧
    0 ≤ (getViewRange 3 11).startPos.line ∧
    (getViewRange 3 11).endPos.line < 11 ∧
    (getViewRange 3 11).startPos.line ≤ 3 ∧ 3 ≤ (getViewRange 3 11).endPos.line :=
  C5_view_window_size 3 11 (by decide) (by decide) (by decide)

/-- C6: for every document with `lineCount < 11` the returned range is the
whole document: it starts at line 0, character 0, and its exclusive end
boundary is line `lineCount`, character 0 — the half-open line range
`[0, lineCount)`. -/
theorem C6_view_window_short (L N : Int) (hN : N < 11) :
    getViewRange L N = ⟨⟨0, 0⟩, ⟨N, 0⟩⟩ := by
  simp only [getViewRange]
  norm_num
  intro h
  omega

theorem C6_view_window_short_witness : getViewRange 4 3 = ⟨⟨0, 0⟩, ⟨3, 0⟩⟩ :=
  C6_view_window_short 4 3 (by decide)

/-- C7: the change detector is reflexively false and sensitive to
single-field changes: `changed s s = false` for every `State s`, and
`changed a b = true` whenever `a` and `b` differ in exactly one of the six
fields. -/
theorem C7_change_detector :
    (∀ s : State, changed s s = false) ∧
    (∀ a b : State, diffCount a b = 1 → changed a b = true) := by
  constructor
  · intro s
    simp [changed, shallowEqual_refl]
  · intro a b h
    cases hc : changed a b
    · exfalso
      have heq : shallowEqual a b = true := by
        simpa [changed] using hc
      have hab : a = b := (shallowEqual_iff a b).mp heq
      subst hab
      simp [diffCount] at h
    · rfl

theorem C7_change_detector_witness :
    changed ⟨"w", "f", "l", 1, 2, "v"⟩ ⟨"w", "f", "l", 1, 2, "v"⟩ = false ∧
    changed ⟨"w", "f", "l", 1, 2, "v"⟩ ⟨"w", "f", "l", 1, 3, "v"⟩ = true :=
  ⟨C7_change_detector.1 ⟨"w", "f", "l", 1, 2, "v"⟩,
   C7_change_detector.2 ⟨"w", "f", "l", 1, 2, "v"⟩ ⟨"w", "f", "l", 1, 3, "v"⟩ (by decide)⟩

/-! ## Claims C1, C9 -/

/-- C1: the ignore check's result is read off the exit code — exit 0
(`ExecResult.success`) means ignored, exit 1 means not ignored, and every
other outcome (other code, absent code, inability to run) is treated as
ignored, fail-closed; moreover, on any tick that runs the check and gets an
ignored outcome, the file path enters the ignore cache, the tick ends at
the ignore branch, and no HTTP report is sent. -/
theorem C1_ignore_exit_code_policy :
    ignoreBranchTaken .success = true ∧
    ignoreBranchTaken (.failure (some 1)) = false ∧
    (∀ c : Option Int, c ≠ some 1 → ignoreBranchTaken (.failure c) = true) ∧
    (∀ (env : ExecEnv) (g : Globals) (s : State),
      shallowEqual g.prevState s = false →
      g.ignoredFiles.contains s.fileName = false →
      (g.prevState.fileName != s.fileName) = true →
      ignoreBranchTaken env.ignoreCheck = true →
      (pollState env g s).outcome = .ignoredChecked ∧
      s.fileName ∈ (pollState env g s).globals.ignoredFiles ∧
      ∀ b, Event.httpSend b ∉ (pollState env g s).trace) := by
  refine ⟨rfl, rfl, ?_, ?_⟩
  · intro c hc
    cases c with
    | none => rfl
    | some v =>
      simp only [ignoreBranchTaken, ignoreCheckIsIgnored]
      simpa using fun hv => hc (by rw [hv])
  · intro env g s h1 h2 h3 h4
    have hres : pollState env g s =
        ⟨{ { g with hasController := true } with
            ignoredFiles := s.fileName :: ({ g with hasController := true } : Globals).ignoredFiles },
         ((if g.hasController then [Event.abortPrev] else []) ++ [Event.newController]) ++
           [Event.execIgnoreCheck s.fileName], .ignoredChecked⟩ := by
      have h2m : s.fileName ∉ g.ignoredFiles := by simpa using h2
      rw [pollState]
      simp [h1, h2m, h3, h4]
    rw [hres]
    refine ⟨rfl, List.mem_cons_self _ _, ?_⟩
    intro b
    cases g.hasController <;> simp

theorem C1_ignore_exit_code_policy_witness :
    ignoreBranchTaken (.failure (some 128)) = true ∧
    (pollState envIgnored gInit sSample).outcome = .ignoredChecked ∧
    sSample.fileName ∈ (pollState envIgnored gInit sSample).globals.ignoredFiles ∧
    Event.httpSend (payloadObject none sSample) ∉ (pollState envIgnored gInit sSample).trace :=
  ⟨C1_ignore_exit_code_policy.2.2.1 (some 128) (by decide),
   (C1_ignore_exit_code_policy.2.2.2 envIgnored gInit sSample
     (by decide) (by decide) (by decide) (by decide)).1,
   (C1_ignore_exit_code_policy.2.2.2 envIgnored gInit sSample
     (by decide) (by decide) (by decide) (by decide)).2.1,
   (C1_ignore_exit_code_policy.2.2.2 envIgnored gInit sSample
     (by decide) (by decide) (by decide) (by decide)).2.2 (payloadObject none sSample)⟩

/-- C9: when the `git remote` enumeration succeeds with empty output,
`getGitRemotes` returns `[""]` (a one-element list holding the empty
string), and `getGitRemotes` returns `[]` exactly when the command failed;
consequently a cache-miss resolution in such a directory performs exactly
one remote-URL lookup, with the empty remote name. -/
theorem C9_empty_remote_enumeration :
    getGitRemotes (some "") = [""] ∧
    (∀ res : Option String, getGitRemotes res = [] ↔ res = none) ∧
    (∀ (env : ExecEnv) (g : Globals) (w : String),
      env.gitRemote = some "" →
      List.lookup w g.knownGitHubs = none →
      (findGitHubURL env g w).2.2 = [Event.execGitRemote, Event.execGetUrl ""]) := by
  refine ⟨by decide, ?_, ?_⟩
  · intro res
    cases res with
    | none => simp [getGitRemotes]
    | some s =>
      simp only [getGitRemotes, jsSplitNl]
      constructor
      · intro h
        exact absurd (List.map_eq_nil_iff.mp h) (splitCharList_ne_nil _ _)
      · intro h
        exact absurd h (by simp)
  · intro env g w he hl
    have hrem : getGitRemotes (some "") = [""] := by decide
    rw [findGitHubURL]
    rw [hl, he, hrem]
    cases hu : getGitRemoteURL (env.remoteUrl "") with
    | some u => simp [scanRemotes, hu]
    | none => simp [scanRemotes, hu]

theorem C9_empty_remote_enumeration_witness :
    (findGitHubURL envEmptyRemote gInit "proj").2.2 =
      [Event.execGitRemote, Event.execGetUrl ""] :=
  C9_empty_remote_enumeration.2.2 envEmptyRemote gInit "proj" (by decide) (by decide)

/-! ## Claims C10, C8 -/

/-- C10: in the part_000 pipeline a tick that stops at the unchanged-state
gate or at the ignore-cache gate leaves the cancellation handle untouched
(the returned globals are unchanged and the trace is empty: no abort of the
previous operation, no fresh `AbortController`); a tick passing both gates
aborts the prior controller exactly when one exists and installs a fresh
one, before any other effect, and no further controller event follows. -/
theorem C10_controller_gating (env : ExecEnv) (g : Globals) (s : State) :
    (shallowEqual g.prevState s = true → pollState env g s = ⟨g, [], .unchanged⟩) ∧
    (shallowEqual g.prevState s = false → g.ignoredFiles.contains s.fileName = true →
      pollState env g s = ⟨g, [], .ignoredCached⟩) ∧
    (shallowEqual g.prevState s = false → g.ignoredFiles.contains s.fileName = false →
      ∃ rest : List Event,
        (pollState env g s).trace =
          (if g.hasController then [Event.abortPrev] else []) ++ Event.newController :: rest ∧
        rest.all (fun e => !isCtrlEvent e) = true ∧
        (pollState env g s).globals.hasController = true) := by
  refine ⟨?_, ?_, ?_⟩
  · intro h1
    rw [pollState]
    simp [h1]
  · intro h1 h2
    have h2m : s.fileName ∈ g.ignoredFiles := by simpa using h2
    rw [pollState]
    simp [h1, h2m]
  · intro h1 h2
    have h2m : s.fileName ∉ g.ignoredFiles := by simpa using h2
    have hfgAll := all_not_ctrl_of_all_exec _
      (findGitHubURL_all_exec env { g with hasController := true } s.workspace)
    by_cases h3 : (g.prevState.fileName != s.fileName) = true
    · by_cases h4 : ignoreBranchTaken env.ignoreCheck = true
      · refine ⟨[Event.execIgnoreCheck s.fileName], ?_, by simp [isCtrlEvent], ?_⟩
        · rw [pollState]
          simp [h1, h2m, h3, h4]
        · rw [pollState]
          simp [h1, h2m, h3, h4]
      · have h4f : ignoreBranchTaken env.ignoreCheck = false := by simpa using h4
        refine ⟨Event.execIgnoreCheck s.fileName ::
            ((findGitHubURL env { g with hasController := true } s.workspace).2.2 ++
             [Event.setPrevState s,
              Event.httpSend (payloadObject
                (findGitHubURL env { g with hasController := true } s.workspace).1 s)]),
          ?_, ?_, ?_⟩
        · rw [pollState]
          simp [h1, h2m, h3, h4f, reportPhase]
        · simp only [List.all_cons, List.all_append, isCtrlEvent, Bool.not_false,
            Bool.true_and, Bool.and_eq_true]
          exact ⟨hfgAll, by simp [isCtrlEvent]⟩
        · rw [pollState]
          simp [h1, h2m, h3, h4f, reportPhase, findGitHubURL_hasController]
    · have h3f : (g.prevState.fileName != s.fileName) = false := by simpa using h3
      refine ⟨(findGitHubURL env { g with hasController := true } s.workspace).2.2 ++
            [Event.setPrevState s,
             Event.httpSend (payloadObject
               (findGitHubURL env { g with hasController := true } s.workspace).1 s)],
        ?_, ?_, ?_⟩
      · rw [pollState]
        simp [h1, h2m, h3f, reportPhase]
      · simp only [List.all_append, Bool.and_eq_true]
        exact ⟨hfgAll, by simp [isCtrlEvent]⟩
      · rw [pollState]
        simp [h1, h2m, h3f, reportPhase, findGitHubURL_hasController]

theorem C10_controller_gating_witness :
    pollState envGitHub gInit gInit.prevState = ⟨gInit, [], .unchanged⟩ ∧
    pollState envGitHub gIgnored sIgn = ⟨gIgnored, [], .ignoredCached⟩ ∧
    ∃ rest : List Event,
      (pollState envGitHub gInit sSample).trace =
        (if gInit.hasController then [Event.abortPrev] else []) ++
          Event.newController :: rest ∧
      rest.all (fun e => !isCtrlEvent e) = true ∧
      (pollState envGitHub gInit sSample).globals.hasController = true :=
  ⟨(C10_controller_gating envGitHub gInit gInit.prevState).1 (by decide),
   (C10_controller_gating envGitHub gIgnored sIgn).2.1 (by decide) (by decide),
   (C10_controller_gating envGitHub gInit sSample).2.2 (by decide) (by decide)⟩

/-- C8: on every tick whose outcome is a report, the process-wide
`prevState` is overwritten with the snapshot, the `prevState` commit
appears in the trace immediately before the HTTP send (every earlier event
is a non-send effect), and a subsequent tick observing the identical
snapshot — under any environment, in particular while the first report's
response is still outstanding (the response handler never touches
`prevState`) — is suppressed by the change detector with no effects. -/
theorem C8_prev_state_committed_before_send (env : ExecEnv) (g g1 : Globals) (s : State)
    (tr : List Event) (r : Option String)
    (h : pollState env g s = ⟨g1, tr, .reported r⟩) :
    g1.prevState = s ∧
    (∃ pre : List Event,
      tr = pre ++ [Event.setPrevState s, Event.httpSend (payloadObject r s)] ∧
      pre.all (fun e => !isSendEvent e) = true) ∧
    (∀ env2 : ExecEnv, pollState env2 g1 s = ⟨g1, [], .unchanged⟩) := by
  have hsendAll := all_not_send_of_all_exec _
    (findGitHubURL_all_exec env { g with hasController := true } s.workspace)
  simp only [pollState] at h
  by_cases h1 : shallowEqual g.prevState s = true
  · rw [if_pos h1] at h
    simp at h
  · rw [if_neg h1] at h
    by_cases h2 : g.ignoredFiles.contains s.fileName = true
    · rw [if_pos h2] at h
      simp at h
    · rw [if_neg h2] at h
      by_cases h3 : (g.prevState.fileName != s.fileName) = true
      · rw [if_pos h3] at h
        by_cases h4 : ignoreBranchTaken env.ignoreCheck = true
        · rw [if_pos h4] at h
          simp at h
        · rw [if_neg h4] at h
          simp only [reportPhase, TickResult.mk.injEq, Outcome.reported.injEq] at h
          obtain ⟨hg, htr, hr⟩ := h
          subst hg htr hr
          refine ⟨rfl, ⟨?_, ?_, ?_⟩, ?_⟩
          · exact ((if g.hasController then [Event.abortPrev] else []) ++
              [Event.newController] ++ [Event.execIgnoreCheck s.fileName]) ++
              (findGitHubURL env { g with hasController := true } s.workspace).2.2
          · simp
          · simp only [List.all_append, Bool.and_eq_true]
            refine ⟨⟨?_, ?_⟩, hsendAll⟩
            · cases g.hasController <;> simp [isSendEvent]
            · simp [isSendEvent]
          · intro env2
            rw [pollState]
            simp [shallowEqual_refl]
      · rw [if_neg h3] at h
        simp only [reportPhase, TickResult.mk.injEq, Outcome.reported.injEq] at h
        obtain ⟨hg, htr, hr⟩ := h
        subst hg htr hr
        refine ⟨rfl, ⟨?_, ?_, ?_⟩, ?_⟩
        · exact ((if g.hasController then [Event.abortPrev] else []) ++
            [Event.newController]) ++
            (findGitHubURL env { g with hasController := true } s.workspace).2.2
        · simp
        · simp only [List.all_append, Bool.and_eq_true]
          refine ⟨?_, hsendAll⟩
          cases g.hasController <;> simp [isSendEvent]
        · intro env2
          rw [pollState]
          simp [shallowEqual_refl]

theorem C8_prev_state_committed_before_send_witness :
    (⟨sSample, [], [("proj", "https://github.com/acme/widgets")], true⟩ : Globals).prevState =
      sSample ∧
    pollState envNoMatch ⟨sSample, [], [("proj", "https://github.com/acme/widgets")], true⟩
        sSample =
      ⟨⟨sSample, [], [("proj", "https://github.com/acme/widgets")], true⟩, [], .unchanged⟩ := by
  have happ := C8_prev_state_committed_before_send envGitHub gInit
      ⟨sSample, [], [("proj", "https://github.com/acme/widgets")], true⟩ sSample
      [Event.newController, Event.execIgnoreCheck "C:\\proj\\main.go", Event.execGitRemote,
       Event.execGetUrl "origin", Event.setPrevState sSample,
       Event.httpSend (payloadObject (some "https://github.com/acme/widgets") sSample)]
      (some "https://github.com/acme/widgets") (by decide)
  exact ⟨happ.1, happ.2.2 envNoMatch⟩

/-! ## Claims C2, C3, C4 (corrected) -/

/-- C2 counterexample: resolving workspace `proj` in an environment whose
only remote is a non-GitHub URL returns absent, but nothing is cached —
there is no "absent" sentinel for `proj` — and a second resolution for the
same workspace performs the same two external calls again (`git remote`,
then one `git remote get-url`), not zero. -/
theorem C2_counterexample :
    (findGitHubURL envNoMatch gInit "proj").1 = none ∧
    List.lookup "proj" ((findGitHubURL envNoMatch gInit "proj").2.1).knownGitHubs = none ∧
    (findGitHubURL envNoMatch ((findGitHubURL envNoMatch gInit "proj").2.1) "proj").2.2 =
      [Event.execGitRemote, Event.execGetUrl "origin"] := by
  exact ⟨by decide, by decide, by decide⟩

/-- C2 amended: when no remote yields a GitHub match, `findGitHubURL`
returns absent and caches nothing, so a second resolution for the same
workspace repeats the identical external calls (one enumeration plus one
URL lookup per remote) and returns absent again; the negative result is
not memoized. -/
theorem C2_absent_not_memoized (env : ExecEnv) (g : Globals) (w : String)
    (hmiss : List.lookup w g.knownGitHubs = none)
    (hnone : ∀ r ∈ getGitRemotes env.gitRemote, getGitRemoteURL (env.remoteUrl r) = none) :
    findGitHubURL env g w =
      (none, g, Event.execGitRemote :: (getGitRemotes env.gitRemote).map Event.execGetUrl) ∧
    findGitHubURL env (findGitHubURL env g w).2.1 w = findGitHubURL env g w := by
  have h1 : findGitHubURL env g w =
      (none, g, Event.execGitRemote :: (getGitRemotes env.gitRemote).map Event.execGetUrl) := by
    rw [findGitHubURL, hmiss]
    simp [scanRemotes_none env _ hnone]
  refine ⟨h1, ?_⟩
  rw [h1]
  exact h1

theorem C2_absent_not_memoized_witness :
    findGitHubURL envNoMatch gInit "proj" =
      (none, gInit,
       Event.execGitRemote :: (getGitRemotes envNoMatch.gitRemote).map Event.execGetUrl) ∧
    findGitHubURL envNoMatch (findGitHubURL envNoMatch gInit "proj").2.1 "proj" =
      findGitHubURL envNoMatch gInit "proj" :=
  C2_absent_not_memoized envNoMatch gInit "proj" (by decide) (by decide)

/-- C3 counterexample: `url.replace('.git', '')` removes the FIRST
occurrence of `.git`, not a trailing suffix: the accepted URL
`git@github.com:acme/my.git.tools.git` rewrites to
`https://github.com/acme/my.tools.git`, not to the suffix-stripped
`https://github.com/acme/my.git.tools` the claim prescribes. -/
theorem C3_counterexample :
    matchGitHubURL "git@github.com:acme/my.git.tools.git" =
      some "https://github.com/acme/my.tools.git" ∧
    ("https://github.com/acme/my.tools.git" : String) ≠
      "https://github.com/acme/my.git.tools" := by
  exact ⟨by decide, by decide⟩

/-- C3 amended: a URL is accepted exactly when it starts with
`git@github.com`; an accepted URL is rewritten by replacing the first
occurrence of `git@github.com:` with `https://github.com/` and then
removing the FIRST occurrence of `.git` — which strips the trailing
`.git` suffix exactly when `.git` occurs nowhere earlier in the rewritten
URL; the claim's two examples hold as stated. -/
theorem C3_github_url_normalization :
    (∀ url : String, (matchGitHubURL url).isSome = jsStartsWith url "git@github.com") ∧
    (∀ rest : String,
      noEarlyMatch ".git".toList ("https://github.com/" ++ rest).toList = true →
      matchGitHubURL ("git@github.com:" ++ rest ++ ".git") =
        some ("https://github.com/" ++ rest)) ∧
    matchGitHubURL "git@github.com:acme/widgets.git" =
      some "https://github.com/acme/widgets" ∧
    matchGitHubURL "git@gitlab.com:acme/widgets.git" = none := by
  refine ⟨?_, ?_, by decide, by decide⟩
  · intro url
    rw [matchGitHubURL]
    split_ifs with hs
    · simp [hs]
    · have : jsStartsWith url "git@github.com" = false := by
        simpa using hs
      simp [this]
  · intro rest h
    have hurl : ("git@github.com:" ++ rest ++ ".git").toList =
        "git@github.com:".toList ++ (rest.toList ++ ".git".toList) := by
      simp [String.toList, String.data_append]
    have hlit : "git@github.com:".toList = "git@github.com".toList ++ [':'] := by decide
    have hstart : jsStartsWith ("git@github.com:" ++ rest ++ ".git") "git@github.com" = true := by
      rw [jsStartsWith, hurl, hlit, List.append_assoc]
      exact isPrefixOf_append_self _ _
    have hrep1 : jsReplaceOnce ("git@github.com:" ++ rest ++ ".git")
        "git@github.com:" "https://github.com/" =
        ⟨"https://github.com/".toList ++ (rest.toList ++ ".git".toList)⟩ := by
      rw [jsReplaceOnce, hurl]
      rw [replaceOnceL_append_self _ _ _ (by decide)]
    have hmk : (⟨"https://github.com/".toList ++ (rest.toList ++ ".git".toList)⟩ :
        String).toList = ("https://github.com/" ++ rest).toList ++ ".git".toList := by
      simp [String.toList, String.data_append]
    have hrep2 : jsReplaceOnce
        ⟨"https://github.com/".toList ++ (rest.toList ++ ".git".toList)⟩ ".git" "" =
        "https://github.com/" ++ rest := by
      rw [jsReplaceOnce, hmk]
      rw [replaceOnceL_strip_tail _ _ (by decide) _ h]
      have hnil : ("".toList : List Char) = [] := rfl
      rw [hnil, List.append_nil]
      rfl
    rw [matchGitHubURL, hstart]
    rw [if_pos rfl, hrep1, hrep2]

theorem C3_github_url_normalization_witness :
    noEarlyMatch ".git".toList ("https://github.com/" ++ "acme/gadgets").toList = true ∧
    matchGitHubURL ("git@github.com:" ++ "acme/gadgets" ++ ".git") =
      some ("https://github.com/" ++ "acme/gadgets") :=
  ⟨by decide, C3_github_url_normalization.2.1 "acme/gadgets" (by decide)⟩

/-- C4 counterexample: a report the dispatcher actually sends (the tick
reaches the POST with no resolved repository) has a JSON body with only
the six State keys — `repository` is `undefined` and `JSON.stringify`
omits it, contradicting "contains exactly the keys repository, workspace,
fileName, language, row, col, viewChunk". -/
theorem C4_counterexample :
    Event.httpSend (payloadObject none sSample) ∈ (pollState envNoMatch gInit sSample).trace ∧
    serializedKeys (payloadObject none sSample) =
      ["workspace", "fileName", "language", "row", "col", "viewChunk"] ∧
    "repository" ∉ serializedKeys (payloadObject none sSample) := by
  exact ⟨by decide, by decide, by decide⟩

/-- C4 amended: the serialized body always contains the six State keys
bound to the snapshot's fields; the `repository` key is present (bound to
a string) exactly when a repository URL was resolved — when resolution
yields no URL the property is `undefined` and the key is omitted entirely
(it is never `null`). -/
theorem C4_payload_shape :
    (∀ (r : String) (s : State),
      serializedKeys (payloadObject (some r) s) =
        ["repository", "workspace", "fileName", "language", "row", "col", "viewChunk"]) ∧
    (∀ s : State, serializedKeys (payloadObject none s) =
        ["workspace", "fileName", "language", "row", "col", "viewChunk"]) ∧
    (∀ (repo : Option String) (s : State),
      List.lookup "workspace" (payloadObject repo s) = some (.str s.workspace) ∧
      List.lookup "fileName" (payloadObject repo s) = some (.str s.fileName) ∧
      List.lookup "language" (payloadObject repo s) = some (.str s.language) ∧
      List.lookup "row" (payloadObject repo s) = some (.num s.row) ∧
      List.lookup "col" (payloadObject repo s) = some (.num s.col) ∧
      List.lookup "viewChunk" (payloadObject repo s) = some (.str s.viewChunk)) := by
  refine ⟨?_, ?_, ?_⟩
  · intro r s
    rfl
  · intro s
    rfl
  · intro repo s
    refine ⟨?_, ?_, ?_, ?_, ?_, ?_⟩ <;> rfl

end VSCodeTracker
